import Mathlib

/-!
Shallow embedding of `pyhealth/datasets/mmash.py` (the `MMASHDataset` loader).

The loader validates a requested table list against a fixed enumerated set,
ensures an extracted copy of the MMASH archive exists (downloading and
extracting it only when a marker path is absent), discovers subject
directories under the extracted root, and assembles one record per subject
from the requested per-subject CSV tables, skipping a subject when a
requested file is missing.

Tables are modelled as lists of rows, a row being an association list from
column name to cell value; the filesystem is modelled as a list of named
entries, each with a kind (directory, plain file, symlink resolving to a
directory or to a file) and a per-filename read outcome.
-/

namespace MMASH

/-- A row of a parsed CSV table: association list from column name to value. -/
abbrev Row := List (String × String)

/-- A parsed CSV table (`pd.read_csv` result): a list of rows. -/
abbrev Table := List Row

/-- `row[c] = v` on one row, as in the pandas column assignment
`df["user_id"] = user_id`: overwrite the cell when the column is already
present, otherwise append the new column. -/
def setCell (row : Row) (c v : String) : Row :=
  if row.any (fun p => p.1 = c) then
    row.map (fun p => if p.1 = c then (c, v) else p)
  else
    row ++ [(c, v)]

/-- `df[c] = v`: set column `c` to the constant `v` on every row,
overwriting a pre-existing column of that name. -/
def setColumn (t : Table) (c v : String) : Table :=
  t.map (fun r => setCell r c v)

/-- Read the value of column `c` in a row (first matching column). -/
def getCell (row : Row) (c : String) : Option String :=
  (row.find? (fun p => p.1 = c)).map (fun p => p.2)

/-- Outcome of one `pd.read_csv(path)` call: a parsed table, a
`FileNotFoundError`, or any other error (permissions, malformed CSV). -/
inductive ReadResult where
  | ok (t : Table)
  | notFound
  | otherError (msg : String)
deriving DecidableEq

/-- Kind of a directory entry as seen by the OS: plain file, directory,
or a symbolic link resolving to a directory / to a file. -/
inductive EntryKind where
  | file
  | dir
  | symlinkToDir
  | symlinkToFile
deriving DecidableEq, BEq

/-- The extracted dataset root `<root>/MMASH/MMASH`: named entries, each
with a kind and, for its interior, a map from filename to read outcome. -/
structure RootDir where
  entries : List (String × EntryKind × (String → ReadResult))

/-- `os.listdir(root_dir)`: the entry names. -/
def listdir (d : RootDir) : List String := d.entries.map (fun e => e.1)

/-- Look up an entry of the root directory by name. -/
def lookupEntry (d : RootDir) (u : String) : Option (EntryKind × (String → ReadResult)) :=
  (d.entries.find? (fun e => e.1 = u)).map (fun e => e.2)

/-- `os.path.isdir(user_path)`. It follows symbolic links: a symlink whose
target is a directory counts as a directory. -/
def isdir (d : RootDir) (u : String) : Bool :=
  match lookupEntry d u with
  | some (k, _) => k == EntryKind.dir || k == EntryKind.symlinkToDir
  | none => false

/-- Reading file `f` inside the entry `u` of the root. -/
def readIn (d : RootDir) (u : String) (f : String) : ReadResult :=
  match lookupEntry d u with
  | some (_, files) => files f
  | none => ReadResult.notFound

/-- Lexicographic `a <= b` on character lists, by code point — Python's
string comparison, used by `sorted`. -/
def charListLe : List Char → List Char → Bool
  | [], _ => true
  | _ :: _, [] => false
  | a :: as, b :: bs => if a = b then charListLe as bs else decide (a < b)

/-- Python string comparison `a <= b`. -/
def pyStrLe (a b : String) : Bool := charListLe a.toList b.toList

/-- The fixed enumerated table set (`ALL_TABLES` at the top of the module). -/
def ALL_TABLES : List String := ["sleep", "activity", "user_info", "questionnaire", "rr"]

/-- The table-name-to-filename pairs, in the fixed order the five
`if "<table>" in self.tables` blocks of `load_data` appear in the source. -/
def tableFiles : List (String × String) :=
  [("sleep", "sleep.csv"), ("activity", "Activity.csv"), ("user_info", "user_info.csv"),
   ("questionnaire", "questionnaire.csv"), ("rr", "RR.csv")]

/-- Outcome of assembling one subject's record: the record was built
(`added`), the subject was skipped by the `except FileNotFoundError:
continue` handler, or a non-missing-file error escaped (`aborted`). -/
inductive SubjectOutcome where
  | added (r : List (String × Table))
  | skipped
  | aborted (msg : String)
deriving DecidableEq

/-- The body of the per-subject `try` block of `load_data`: walk the
table/file pairs in order; for each requested table read its file, tag
every row with the subject identifier under `"user_id"`, and add the table
to the record. A `FileNotFoundError` stops the walk with `skipped`; any
other read error stops it with `aborted`. Returns the list of files whose
read was attempted (in order) together with the outcome. -/
def readTables (tables : List String) (rf : String → ReadResult) (uid : String) :
    List (String × String) → List (String × Table) → List String →
    List String × SubjectOutcome
  | [], acc, reads => (reads, SubjectOutcome.added acc)
  | (t, f) :: rest, acc, reads =>
    if t ∈ tables then
      match rf f with
      | ReadResult.ok tab =>
          readTables tables rf uid rest (acc ++ [(t, setColumn tab "user_id" uid)]) (reads ++ [f])
      | ReadResult.notFound => (reads ++ [f], SubjectOutcome.skipped)
      | ReadResult.otherError m => (reads ++ [f], SubjectOutcome.aborted m)
    else
      readTables tables rf uid rest acc reads

/-- Assemble one subject's record from the five fixed table/file pairs. -/
def loadSubject (tables : List String) (rf : String → ReadResult) (uid : String) :
    List String × SubjectOutcome :=
  readTables tables rf uid tableFiles [] []

/-- One `add_sample(patient_id, visit_id, record)` call. -/
abbrev Sample := String × String × List (String × Table)

/-- Result of `load_data`: either all subjects were processed (`ok`, with
the samples added in order), or an uncaught per-subject error aborted the
loop (`error`, with the samples added before the abort). -/
inductive LoadResult where
  | ok (samples : List Sample)
  | error (msg : String) (samples : List Sample)

/-- The subject loop of `load_data` over the (already sorted) user list:
skip non-directory entries, and per subject dispatch on the assembly
outcome — `added` appends a sample, `skipped` moves on, `aborted`
terminates the whole loop. -/
def loadDataAux (tables : List String) (d : RootDir) :
    List String → List Sample → LoadResult
  | [], acc => LoadResult.ok acc
  | u :: rest, acc =>
    if isdir d u then
      match (loadSubject tables (readIn d u) u).2 with
      | SubjectOutcome.added r => loadDataAux tables d rest (acc ++ [(u, u, r)])
      | SubjectOutcome.skipped => loadDataAux tables d rest acc
      | SubjectOutcome.aborted m => LoadResult.error m acc
    else
      loadDataAux tables d rest acc

/-- `load_data`: sort the directory listing (`sorted(os.listdir(root_dir))`,
Python's lexicographic string sort) and run the subject loop. -/
def load_data (tables : List String) (d : RootDir) : LoadResult :=
  loadDataAux tables d ((listdir d).insertionSort (fun a b => pyStrLe a b = true)) []

/-- The subjects actually processed by `load_data`: the sorted listing
restricted to entries that resolve to directories. -/
def discoveredSubjects (d : RootDir) : List String :=
  ((listdir d).insertionSort (fun a b => pyStrLe a b = true)).filter (fun u => isdir d u)

/-- Rendering of `ALL_TABLES` inside the two error f-strings. -/
def allTablesStr : String :=
  "[" ++ String.intercalate ", " ALL_TABLES ++ "]"

/-- The `ValueError` message raised when `tables is None`. -/
def mustSpecifyMsg : String :=
  "`tables` must be specified from " ++ allTablesStr

/-- The `ValueError` message raised for a table outside `ALL_TABLES`. -/
def unsupportedMsg (t : String) : String :=
  "Unsupported table: " ++ t ++ ". Must be one of " ++ allTablesStr

/-- The validation loop of `__init__`: raise at the first table not in
`ALL_TABLES`. -/
def validateList : List String → Except String Unit
  | [] => Except.ok ()
  | t :: rest =>
    if t ∈ ALL_TABLES then validateList rest else Except.error (unsupportedMsg t)

/-- The table validation of `__init__`: `tables is None` raises, then each
element is checked against `ALL_TABLES`; on success the list is kept. -/
def validateTables : Option (List String) → Except String (List String)
  | none => Except.error mustSpecifyMsg
  | some ts =>
    match validateList ts with
    | Except.ok _ => Except.ok ts
    | Except.error m => Except.error m

/-- Python `int(s)` on a digit list: all characters must be digits and at
least one must be present. -/
def parseDigits (cs : List Char) : Option Nat :=
  if cs ≠ [] ∧ cs.all Char.isDigit then
    some (cs.foldl (fun n c => n * 10 + (c.toNat - 48)) 0)
  else
    none

/-- Strip leading and trailing whitespace from a character list. -/
def stripWS (cs : List Char) : List Char :=
  ((cs.dropWhile Char.isWhitespace).reverse.dropWhile Char.isWhitespace).reverse

/-- Python `int(s)` on a string: strip whitespace, allow an optional sign
followed by digits; anything else raises `ValueError`. -/
def pyInt (s : String) : Except String Int :=
  match stripWS s.toList with
  | '+' :: rest =>
    match parseDigits rest with
    | some n => Except.ok (n : Int)
    | none => Except.error ("invalid literal for int: " ++ s)
  | '-' :: rest =>
    match parseDigits rest with
    | some n => Except.ok (-(n : Int))
    | none => Except.error ("invalid literal for int: " ++ s)
  | cs =>
    match parseDigits cs with
    | some n => Except.ok (n : Int)
    | none => Except.error ("invalid literal for int: " ++ s)

/-- `int(response.headers.get("content-length", 0))`: a missing header
falls back to the integer `0`; a present header string goes through
Python `int`. -/
def contentTotal (header : Option String) : Except String Int :=
  match header with
  | none => Except.ok 0
  | some s => pyInt s

/-- The download loop of `download_and_extract`: compute the progress-bar
total from the `content-length` header, then stream every chunk of the
response body to the zip file. The total feeds only the progress bar, so
the bytes written are the concatenated chunks whatever its value is. -/
def download (header : Option String) (chunks : List (List Nat)) :
    Except String (Int × List Nat) :=
  match contentTotal header with
  | Except.error m => Except.error m
  | Except.ok total => Except.ok (total, chunks.flatten)

/-- Externally visible actions of constructing the loader, in order. -/
inductive Step where
  | existsCheck
  | httpGet
  | extract
  | removeZip
  | listSubjects
deriving DecidableEq

/-- The world `__init__` runs against: whether the marker path
`<root>/MMASH/MMASH` exists, the current local content of the extracted
root (meaningful when the marker exists), and the content the remote
archive would extract to. -/
structure World where
  markerExists : Bool
  localRoot : RootDir
  remoteRoot : RootDir

/-- Acquisition actions: `download_and_extract` runs only when the marker
path is absent. -/
def acquisitionSteps (w : World) : List Step :=
  if w.markerExists then [] else [Step.httpGet, Step.extract, Step.removeZip]

/-- The extracted root `load_data` reads: the pre-existing one when the
marker exists, otherwise the one produced by download-and-extract. -/
def effectiveRoot (w : World) : RootDir :=
  if w.markerExists then w.localRoot else w.remoteRoot

/-- `__init__`: validate the table argument (before any I/O — a validation
failure produces an empty action trace), then check the marker path, run
acquisition if needed, and load the data. Returns the action trace and
the outcome. -/
def initLoader (tablesArg : Option (List String)) (w : World) :
    List Step × Except String LoadResult :=
  match validateTables tablesArg with
  | Except.error m => ([], Except.error m)
  | Except.ok tables =>
    ([Step.existsCheck] ++ acquisitionSteps w ++ [Step.listSubjects],
     Except.ok (load_data tables (effectiveRoot w)))

/-! ### Concrete example data, used to instantiate the theorems -/

/-- Example read map: every filename parses to the one-row table `x = 1`. -/
def exRead : String → ReadResult := fun _ => ReadResult.ok [[("x", "1")]]

/-- Example read map for a subject whose `Activity.csv` is missing. -/
def exReadNoActivity : String → ReadResult := fun f =>
  if f = "Activity.csv" then ReadResult.notFound else ReadResult.ok [[("x", "1")]]

/-- Example read map for a subject whose `Activity.csv` raises a
permission error. -/
def exReadBadActivity : String → ReadResult := fun f =>
  if f = "Activity.csv" then ReadResult.otherError "perm" else ReadResult.ok [[("x", "1")]]

/-- Example read map whose tables already carry a `user_id` column. -/
def exReadOldId : String → ReadResult := fun _ =>
  ReadResult.ok [[("user_id", "OLD"), ("x", "1")]]

/-- A root with one subject directory `A` missing `Activity.csv`. -/
def exDirA : RootDir := ⟨[("A", EntryKind.dir, exReadNoActivity)]⟩

/-- A root with one subject directory `A` whose `Activity.csv` read raises
a permission error. -/
def exDirB : RootDir := ⟨[("A", EntryKind.dir, exReadBadActivity)]⟩

/-- A root whose single entry `S` is a symbolic link to a directory. -/
def exDirSym : RootDir := ⟨[("S", EntryKind.symlinkToDir, exRead)]⟩

/-- A root with no entries at all. -/
def exEmptyDir : RootDir := ⟨[]⟩

/-- A world whose marker path already exists. -/
def exWorld : World := ⟨true, exDirA, exDirA⟩

/-- The record assembled for subject `A` when `rr` and `sleep` are
requested and every file parses to the one-row table `x = 1`. -/
def exRec : List (String × Table) :=
  [("sleep", [[("x", "1"), ("user_id", "A")]]), ("rr", [[("x", "1"), ("user_id", "A")]])]

/-! ### Lemmas about the string comparator -/

theorem charListLe_refl (as : List Char) : charListLe as as = true := by
  induction as with
  | nil => rfl
  | cons a as ih => simp [charListLe, ih]

theorem charListLe_total (as bs : List Char) :
    charListLe as bs = true ∨ charListLe bs as = true := by
  induction as generalizing bs with
  | nil => exact Or.inl rfl
  | cons a as ih =>
    cases bs with
    | nil => exact Or.inr rfl
    | cons b bs =>
      by_cases hab : a = b
      · subst hab
        simpa [charListLe] using ih bs
      · rcases lt_trichotomy a b with h | h | h
        · exact Or.inl (by simp [charListLe, hab, h])
        · exact absurd h hab
        · exact Or.inr (by simp [charListLe, Ne.symm hab, h])

theorem charListLe_trans (as bs cs : List Char)
    (h1 : charListLe as bs = true) (h2 : charListLe bs cs = true) :
    charListLe as cs = true := by
  induction as generalizing bs cs with
  | nil => rfl
  | cons a as ih =>
    cases bs with
    | nil => simp [charListLe] at h1
    | cons b bs =>
      cases cs with
      | nil => simp [charListLe] at h2
      | cons c cs =>
        by_cases hab : a = b <;> by_cases hbc : b = c
        · subst hab; subst hbc
          simp only [charListLe, if_pos rfl] at h1 h2 ⊢
          exact ih bs cs h1 h2
        · subst hab
          simp only [charListLe, if_pos rfl, if_neg hbc] at h2 ⊢
          simp [hbc] at h2
          simp [h2]
        · subst hbc
          simp only [charListLe, if_neg hab, if_pos rfl] at h1 ⊢
          exact h1
        · simp only [charListLe, if_neg hab, if_neg hbc] at h1 h2
          simp only [decide_eq_true_eq] at h1 h2
          have hac : a < c := lt_trans h1 h2
          simp [charListLe, ne_of_lt hac, hac]

instance pyStrLeTotal : IsTotal String (fun a b => pyStrLe a b = true) :=
  ⟨fun a b => charListLe_total a.toList b.toList⟩

instance pyStrLeTrans : IsTrans String (fun a b => pyStrLe a b = true) :=
  ⟨fun a b c => charListLe_trans a.toList b.toList c.toList⟩

/-- The comparator used by the sort is the (non-strict) lexicographic order
on code-point sequences: `a` comes no later than `b` iff the character
lists are equal or lexicographically related by `<`. -/
theorem charListLe_iff_lex (as bs : List Char) :
    charListLe as bs = true ↔ (as = bs ∨ List.Lex (fun x y => x < y) as bs) := by
  induction as generalizing bs with
  | nil =>
    cases bs with
    | nil => simp [charListLe]
    | cons b bs => simp [charListLe, List.Lex.nil]
  | cons a as ih =>
    cases bs with
    | nil =>
      constructor
      · intro h; simp [charListLe] at h
      · rintro (h | h)
        · exact absurd h (by simp)
        · cases h
    | cons b bs =>
      by_cases hab : a = b
      · subst hab
        rw [show charListLe (a :: as) (a :: bs) = charListLe as bs from by
          simp [charListLe]]
        rw [ih bs]
        constructor
        · rintro (h | h)
          · exact Or.inl (by rw [h])
          · exact Or.inr (List.Lex.cons h)
        · rintro (h | h)
          · exact Or.inl (by injection h)
          · cases h with
            | cons h => exact Or.inr h
            | rel h => exact absurd h (lt_irrefl a)
      · rw [show charListLe (a :: as) (b :: bs) = decide (a < b) from by
          simp [charListLe, hab]]
        simp only [decide_eq_true_eq]
        constructor
        · intro h; exact Or.inr (List.Lex.rel h)
        · rintro (h | h)
          · exact absurd (by injection h) hab
          · cases h with
            | cons h => exact absurd rfl hab
            | rel h => exact h

theorem pyStrLe_iff_lex (a b : String) :
    pyStrLe a b = true ↔
      (a.toList = b.toList ∨ List.Lex (fun x y => x < y) a.toList b.toList) :=
  charListLe_iff_lex a.toList b.toList

/-! ### Lemmas about the pandas column assignment -/

theorem getCell_setCell (row : Row) (c v : String) :
    getCell (setCell row c v) c = some v := by
  by_cases h : row.any (fun p => p.1 = c)
  · simp only [setCell, if_pos h]
    induction row with
    | nil => simp at h
    | cons q rest ih =>
      by_cases hq : q.1 = c
      · simp [getCell, List.find?, hq]
      · simp only [List.any_cons, Bool.or_eq_true, decide_eq_true_eq] at h
        rcases h with h | h
        · exact absurd h hq
        · simp only [List.map_cons, if_neg hq]
          simpa [getCell, List.find?, hq] using ih h
  · simp only [setCell, if_neg h]
    have hnone : row.find? (fun p => decide (p.1 = c)) = none := by
      rw [List.find?_eq_none]
      intro p hp
      simp only [List.any_eq_true, not_exists, not_and] at h
      simp [h p hp]
    simp [getCell, List.find?_append, hnone, List.find?]

/-! ### Lemmas about per-subject assembly -/

theorem readTables_skipped (tables : List String) (rf : String → ReadResult) (uid : String)
    (pre : List (String × String)) (t f : String) (post : List (String × String))
    (acc : List (String × Table)) (reads : List String)
    (ht : t ∈ tables)
    (hpre : ∀ p ∈ pre, p.1 ∈ tables → ∃ tab, rf p.2 = ReadResult.ok tab)
    (hf : rf f = ReadResult.notFound) :
    (readTables tables rf uid (pre ++ (t, f) :: post) acc reads).2 =
      SubjectOutcome.skipped := by
  induction pre generalizing acc reads with
  | nil => simp [readTables, ht, hf]
  | cons q pre ih =>
    obtain ⟨t', f'⟩ := q
    by_cases hq : t' ∈ tables
    · obtain ⟨tab, htab⟩ := hpre (t', f') (by simp) hq
      simp only [List.cons_append, readTables, if_pos hq, htab]
      exact ih _ _ (fun p hp => hpre p (List.mem_cons_of_mem _ hp))
    · simp only [List.cons_append, readTables, if_neg hq]
      exact ih _ _ (fun p hp => hpre p (List.mem_cons_of_mem _ hp))

theorem readTables_aborted (tables : List String) (rf : String → ReadResult) (uid : String)
    (pre : List (String × String)) (t f : String) (post : List (String × String))
    (acc : List (String × Table)) (reads : List String) (m : String)
    (ht : t ∈ tables)
    (hpre : ∀ p ∈ pre, p.1 ∈ tables → ∃ tab, rf p.2 = ReadResult.ok tab)
    (hf : rf f = ReadResult.otherError m) :
    (readTables tables rf uid (pre ++ (t, f) :: post) acc reads).2 =
      SubjectOutcome.aborted m := by
  induction pre generalizing acc reads with
  | nil => simp [readTables, ht, hf]
  | cons q pre ih =>
    obtain ⟨t', f'⟩ := q
    by_cases hq : t' ∈ tables
    · obtain ⟨tab, htab⟩ := hpre (t', f') (by simp) hq
      simp only [List.cons_append, readTables, if_pos hq, htab]
      exact ih _ _ (fun p hp => hpre p (List.mem_cons_of_mem _ hp))
    · simp only [List.cons_append, readTables, if_neg hq]
      exact ih _ _ (fun p hp => hpre p (List.mem_cons_of_mem _ hp))

theorem readTables_added (tables : List String) (rf : String → ReadResult) (uid : String)
    (pairs : List (String × String)) :
    ∀ (acc : List (String × Table)) (reads : List String) (r : List (String × Table)),
      (readTables tables rf uid pairs acc reads).2 = SubjectOutcome.added r →
      (r.map Prod.fst =
          acc.map Prod.fst ++ (pairs.filter (fun p => decide (p.1 ∈ tables))).map Prod.fst
        ∧ ∀ p ∈ pairs, p.1 ∈ tables → ∃ tab, rf p.2 = ReadResult.ok tab) := by
  induction pairs with
  | nil =>
    intro acc reads r h
    simp only [readTables, SubjectOutcome.added.injEq] at h
    subst h
    simp
  | cons q pairs ih =>
    obtain ⟨t, f⟩ := q
    intro acc reads r h
    by_cases hq : t ∈ tables
    · cases hrf : rf f with
      | ok tab =>
        simp only [readTables, if_pos hq, hrf] at h
        obtain ⟨hkeys, hrest⟩ := ih _ _ _ h
        refine ⟨?_, ?_⟩
        · simp only [hkeys, List.filter_cons, hq, decide_True, List.map_append, List.map_cons]
          simp
        · intro p hp hpt
          rcases List.mem_cons.mp hp with hp | hp
          · subst hp; exact ⟨tab, hrf⟩
          · exact hrest p hp hpt
      | notFound => simp [readTables, if_pos hq, hrf] at h
      | otherError m => simp [readTables, if_pos hq, hrf] at h
    · simp only [readTables, if_neg hq] at h
      obtain ⟨hkeys, hrest⟩ := ih _ _ _ h
      refine ⟨?_, ?_⟩
      · simp [hkeys, List.filter_cons, hq]
      · intro p hp hpt
        rcases List.mem_cons.mp hp with hp | hp
        · subst hp; exact absurd hpt hq
        · exact hrest p hp hpt

theorem readTables_userid (tables : List String) (rf : String → ReadResult) (uid : String)
    (pairs : List (String × String)) :
    ∀ (acc : List (String × Table)) (reads : List String) (r : List (String × Table)),
      (∀ t tab, (t, tab) ∈ acc → ∀ row ∈ tab, getCell row "user_id" = some uid) →
      (readTables tables rf uid pairs acc reads).2 = SubjectOutcome.added r →
      ∀ t tab, (t, tab) ∈ r → ∀ row ∈ tab, getCell row "user_id" = some uid := by
  induction pairs with
  | nil =>
    intro acc reads r hacc h
    simp only [readTables, SubjectOutcome.added.injEq] at h
    subst h
    exact hacc
  | cons q pairs ih =>
    obtain ⟨t, f⟩ := q
    intro acc reads r hacc h
    by_cases hq : t ∈ tables
    · cases hrf : rf f with
      | ok tab =>
        simp only [readTables, if_pos hq, hrf] at h
        refine ih _ _ _ ?_ h
        intro t' tab' htab' row hrow
        rcases List.mem_append.mp htab' with hmem | hmem
        · exact hacc t' tab' hmem row hrow
        · simp only [List.mem_singleton, Prod.mk.injEq] at hmem
          obtain ⟨_, htabeq⟩ := hmem
          subst htabeq
          obtain ⟨row0, _, hrow0⟩ := List.mem_map.mp hrow
          subst hrow0
          exact getCell_setCell row0 "user_id" uid
      | notFound => simp [readTables, if_pos hq, hrf] at h
      | otherError m => simp [readTables, if_pos hq, hrf] at h
    · simp only [readTables, if_neg hq] at h
      exact ih _ _ _ hacc h

theorem readTables_ext (tables1 tables2 : List String)
    (h : ∀ t, t ∈ tables1 ↔ t ∈ tables2)
    (rf : String → ReadResult) (uid : String) (pairs : List (String × String)) :
    ∀ (acc : List (String × Table)) (reads : List String),
      readTables tables1 rf uid pairs acc reads = readTables tables2 rf uid pairs acc reads := by
  induction pairs with
  | nil => intro acc reads; rfl
  | cons q pairs ih =>
    obtain ⟨t, f⟩ := q
    intro acc reads
    by_cases h1 : t ∈ tables1
    · have h2 : t ∈ tables2 := (h t).mp h1
      simp only [readTables, if_pos h1, if_pos h2]
      cases rf f with
      | ok tab => exact ih _ _
      | notFound => rfl
      | otherError m => rfl
    · have h2 : t ∉ tables2 := fun hc => h1 ((h t).mpr hc)
      simp only [readTables, if_neg h1, if_neg h2]
      exact ih _ _

theorem readTables_reads_sublist (tables : List String) (rf : String → ReadResult)
    (uid : String) (pairs : List (String × String)) :
    ∀ (acc : List (String × Table)) (reads : List String),
      ∃ s, (readTables tables rf uid pairs acc reads).1 = reads ++ s
        ∧ s.Sublist (pairs.map Prod.snd) := by
  induction pairs with
  | nil => intro acc reads; exact ⟨[], by simp [readTables]⟩
  | cons q pairs ih =>
    obtain ⟨t, f⟩ := q
    intro acc reads
    by_cases hq : t ∈ tables
    · cases hrf : rf f with
      | ok tab =>
        obtain ⟨s, hs, hsub⟩ := ih (acc ++ [(t, setColumn tab "user_id" uid)]) (reads ++ [f])
        refine ⟨f :: s, ?_, ?_⟩
        · simp only [readTables, if_pos hq, hrf, hs, List.append_assoc, List.singleton_append]
        · exact List.Sublist.cons₂ f hsub
      | notFound =>
        exact ⟨[f], by simp [readTables, hq, hrf],
          List.Sublist.cons₂ f (List.nil_sublist _)⟩
      | otherError m =>
        exact ⟨[f], by simp [readTables, hq, hrf],
          List.Sublist.cons₂ f (List.nil_sublist _)⟩
    · obtain ⟨s, hs, hsub⟩ := ih acc reads
      exact ⟨s, by simp [readTables, hq, hs], List.Sublist.cons f hsub⟩

theorem readTables_no_tables (rf : String → ReadResult) (uid : String)
    (pairs : List (String × String)) :
    ∀ (acc : List (String × Table)) (reads : List String),
      readTables [] rf uid pairs acc reads = (reads, SubjectOutcome.added acc) := by
  induction pairs with
  | nil => intro acc reads; rfl
  | cons q pairs ih =>
    obtain ⟨t, f⟩ := q
    intro acc reads
    simp only [readTables, List.not_mem_nil, if_neg (fun h => h)]
    exact ih acc reads

/-! ### Lemmas about the subject loop -/

theorem loadDataAux_skip (tables : List String) (d : RootDir) (u : String)
    (rest : List String) (acc : List Sample)
    (hdir : isdir d u = true)
    (h : (loadSubject tables (readIn d u) u).2 = SubjectOutcome.skipped) :
    loadDataAux tables d (u :: rest) acc = loadDataAux tables d rest acc := by
  simp [loadDataAux, hdir, h]

theorem loadDataAux_abort (tables : List String) (d : RootDir) (u : String)
    (rest : List String) (acc : List Sample) (m : String)
    (hdir : isdir d u = true)
    (h : (loadSubject tables (readIn d u) u).2 = SubjectOutcome.aborted m) :
    loadDataAux tables d (u :: rest) acc = LoadResult.error m acc := by
  simp [loadDataAux, hdir, h]

theorem loadDataAux_ext (tables1 tables2 : List String)
    (h : ∀ t, t ∈ tables1 ↔ t ∈ tables2) (d : RootDir) (users : List String) :
    ∀ acc : List Sample,
      loadDataAux tables1 d users acc = loadDataAux tables2 d users acc := by
  induction users with
  | nil => intro acc; rfl
  | cons u rest ih =>
    intro acc
    by_cases hdir : isdir d u
    · have hsubj : loadSubject tables1 (readIn d u) u = loadSubject tables2 (readIn d u) u :=
        readTables_ext tables1 tables2 h (readIn d u) u tableFiles [] []
      simp only [loadDataAux, if_pos hdir, hsubj]
      cases (loadSubject tables2 (readIn d u) u).2 with
      | added r => exact ih _
      | skipped => exact ih _
      | aborted m => rfl
    · simp only [loadDataAux, if_neg hdir]
      exact ih _

theorem loadDataAux_no_tables (d : RootDir) (users : List String) :
    ∀ acc : List Sample,
      loadDataAux [] d users acc =
        LoadResult.ok (acc ++ (users.filter (fun u => isdir d u)).map (fun u => (u, u, []))) := by
  induction users with
  | nil => intro acc; simp [loadDataAux]
  | cons u rest ih =>
    intro acc
    by_cases hdir : isdir d u
    · have hsubj : (loadSubject [] (readIn d u) u).2 = SubjectOutcome.added [] := by
        rw [loadSubject, readTables_no_tables]
      simp [loadDataAux, hdir, hsubj, ih, List.filter_cons]
    · simp [loadDataAux, hdir, ih, List.filter_cons]

/-- The key set of a record assembled from the full requested walk: a
table name is a key iff it is requested and one of the five table names. -/
theorem mem_requestedKeys (tables : List String) (t : String) :
    t ∈ (tableFiles.filter (fun p => decide (p.1 ∈ tables))).map Prod.fst ↔
      (t ∈ tables ∧ t ∈ ALL_TABLES) := by
  constructor
  · intro h
    rcases List.mem_map.mp h with ⟨p, hp, hpt⟩
    rcases List.mem_filter.mp hp with ⟨hpmem, hpdec⟩
    subst hpt
    refine ⟨by simpa using hpdec, ?_⟩
    simp only [tableFiles, List.mem_cons, List.not_mem_nil, or_false] at hpmem
    rcases hpmem with h | h | h | h | h <;> subst h <;> simp [ALL_TABLES]
  · rintro ⟨h1, h2⟩
    refine List.mem_map.mpr ?_
    simp only [ALL_TABLES, List.mem_cons, List.not_mem_nil, or_false] at h2
    rcases h2 with h | h | h | h | h <;> subst h
    · exact ⟨("sleep", "sleep.csv"),
        List.mem_filter.mpr ⟨by simp [tableFiles], by simpa using h1⟩, rfl⟩
    · exact ⟨("activity", "Activity.csv"),
        List.mem_filter.mpr ⟨by simp [tableFiles], by simpa using h1⟩, rfl⟩
    · exact ⟨("user_info", "user_info.csv"),
        List.mem_filter.mpr ⟨by simp [tableFiles], by simpa using h1⟩, rfl⟩
    · exact ⟨("questionnaire", "questionnaire.csv"),
        List.mem_filter.mpr ⟨by simp [tableFiles], by simpa using h1⟩, rfl⟩
    · exact ⟨("rr", "RR.csv"),
        List.mem_filter.mpr ⟨by simp [tableFiles], by simpa using h1⟩, rfl⟩

/-! ### Validation lemmas -/

theorem validateList_invalid : ∀ (pre : List String) (t : String) (post : List String),
    (∀ x ∈ pre, x ∈ ALL_TABLES) → t ∉ ALL_TABLES →
    validateList (pre ++ t :: post) = Except.error (unsupportedMsg t)
  | [], t, post, _, ht => by simp [validateList, ht]
  | x :: pre, t, post, hpre, ht => by
    have hx : x ∈ ALL_TABLES := hpre x (List.mem_cons_self x pre)
    simp only [List.cons_append, validateList, if_pos hx]
    exact validateList_invalid pre t post (fun y hy => hpre y (List.mem_cons_of_mem _ hy)) ht

/-! ### The claims -/

/-- Claim C1: during assembly, a `FileNotFoundError` on any requested
table's file (all requested files before it in the fixed walk having read
successfully) makes the loop skip that subject alone — no record is added
for it, even though earlier tables were already read, and the remaining
subjects are processed as if the subject were absent; whereas any other
read error (modelled as `ReadResult.otherError`) propagates, terminating
the whole load with the samples added so far. -/
theorem missing_file_skips_subject_other_errors_abort :
    (∀ (tables : List String) (d : RootDir) (u : String) (rest : List String)
       (acc : List Sample) (pre : List (String × String)) (t f : String)
       (post : List (String × String)),
       tableFiles = pre ++ (t, f) :: post →
       t ∈ tables →
       (∀ p ∈ pre, p.1 ∈ tables → ∃ tab, readIn d u p.2 = ReadResult.ok tab) →
       readIn d u f = ReadResult.notFound →
       isdir d u = true →
       loadDataAux tables d (u :: rest) acc = loadDataAux tables d rest acc)
    ∧ (∀ (tables : List String) (d : RootDir) (u : String) (rest : List String)
       (acc : List Sample) (pre : List (String × String)) (t f : String)
       (post : List (String × String)) (m : String),
       tableFiles = pre ++ (t, f) :: post →
       t ∈ tables →
       (∀ p ∈ pre, p.1 ∈ tables → ∃ tab, readIn d u p.2 = ReadResult.ok tab) →
       readIn d u f = ReadResult.otherError m →
       isdir d u = true →
       loadDataAux tables d (u :: rest) acc = LoadResult.error m acc) := by
  constructor
  · intro tables d u rest acc pre t f post hdecomp ht hpre hf hdir
    refine loadDataAux_skip tables d u rest acc hdir ?_
    rw [loadSubject, hdecomp]
    exact readTables_skipped tables (readIn d u) u pre t f post [] [] ht hpre hf
  · intro tables d u rest acc pre t f post m hdecomp ht hpre hf hdir
    refine loadDataAux_abort tables d u rest acc m hdir ?_
    rw [loadSubject, hdecomp]
    exact readTables_aborted tables (readIn d u) u pre t f post [] [] m ht hpre hf

/-- Witness for C1: subject `A` requested `sleep` and `activity`; with
`Activity.csv` missing the loop ends with no sample, with `Activity.csv`
raising a permission error the loop aborts. -/
theorem missing_file_skips_subject_other_errors_abort_witness :
    loadDataAux ["sleep", "activity"] exDirA ["A"] [] = LoadResult.ok []
    ∧ loadDataAux ["sleep", "activity"] exDirB ["A"] [] = LoadResult.error "perm" [] := by
  constructor
  · have h := missing_file_skips_subject_other_errors_abort.1 ["sleep", "activity"] exDirA
      "A" [] [] [("sleep", "sleep.csv")] "activity" "Activity.csv"
      [("user_info", "user_info.csv"), ("questionnaire", "questionnaire.csv"), ("rr", "RR.csv")]
      rfl (by decide)
      (by
        intro p hp hpt
        simp only [List.mem_singleton] at hp
        subst hp
        exact ⟨[[("x", "1")]], rfl⟩)
      rfl rfl
    exact h.trans rfl
  · have h := missing_file_skips_subject_other_errors_abort.2 ["sleep", "activity"] exDirB
      "A" [] [] [("sleep", "sleep.csv")] "activity" "Activity.csv"
      [("user_info", "user_info.csv"), ("questionnaire", "questionnaire.csv"), ("rr", "RR.csv")]
      "perm" rfl (by decide)
      (by
        intro p hp hpt
        simp only [List.mem_singleton] at hp
        subst hp
        exact ⟨[[("x", "1")]], rfl⟩)
      rfl rfl
    exact h

/-- Claim C2: a record handed to `add_sample` has as keys exactly the
requested table names drawn from the fixed set (= the intersection of the
requested names with the names whose file existed: in the added case every
requested valid table's file was read successfully, as the second and
third conjuncts state), and when every requested name is valid, exactly
the full requested set. -/
theorem added_record_keys_exact (tables : List String) (rf : String → ReadResult)
    (uid : String) (r : List (String × Table))
    (h : (loadSubject tables rf uid).2 = SubjectOutcome.added r) :
    (∀ t, t ∈ r.map Prod.fst ↔ (t ∈ tables ∧ t ∈ ALL_TABLES))
    ∧ (∀ p ∈ tableFiles, p.1 ∈ tables → ∃ tab, rf p.2 = ReadResult.ok tab)
    ∧ ((∀ t ∈ tables, t ∈ ALL_TABLES) → ∀ t, t ∈ r.map Prod.fst ↔ t ∈ tables) := by
  obtain ⟨hkeys, hok⟩ := readTables_added tables rf uid tableFiles [] [] r h
  have hmem : ∀ t, t ∈ r.map Prod.fst ↔ (t ∈ tables ∧ t ∈ ALL_TABLES) := by
    intro t
    rw [show r.map Prod.fst = (tableFiles.filter (fun p => decide (p.1 ∈ tables))).map Prod.fst
      from by simpa using hkeys]
    exact mem_requestedKeys tables t
  exact ⟨hmem, hok, fun hvalid t =>
    (hmem t).trans ⟨fun hc => hc.1, fun hc => ⟨hc, hvalid t hc⟩⟩⟩

/-- Witness for C2: requesting `rr` and `sleep` with every file present
yields a record keyed by exactly those two tables, whose files were read. -/
theorem added_record_keys_exact_witness :
    ("rr" ∈ exRec.map Prod.fst ∧ "activity" ∉ exRec.map Prod.fst)
    ∧ ∃ tab, exRead "RR.csv" = ReadResult.ok tab := by
  have h := added_record_keys_exact ["rr", "sleep"] exRead "A" exRec rfl
  refine ⟨⟨(h.1 "rr").mpr (by decide), fun hc => ?_⟩, h.2.1 ("rr", "RR.csv") (by decide) (by decide)⟩
  have := (h.1 "activity").mp hc
  simp at this

/-- Claim C3, corrected: the counterexample. An empty (non-`None`) table
list passes validation, and construction proceeds into acquisition and
load instead of failing: the claim that an empty list fails with a
configuration error is false. -/
theorem empty_tables_accepted :
    validateTables (some []) = Except.ok []
    ∧ initLoader (some []) exWorld =
        ([Step.existsCheck, Step.listSubjects],
         Except.ok (LoadResult.ok [("A", "A", [])])) :=
  ⟨rfl, rfl⟩

/-- Claim C3, amended: only a missing (`None`) table argument fails
construction, immediately, with the descriptive error and before any I/O
(the action trace is empty); an empty list is accepted. -/
theorem tables_none_rejected_before_io :
    validateTables none = Except.error mustSpecifyMsg
    ∧ mustSpecifyMsg = "`tables` must be specified from " ++ allTablesStr
    ∧ (∀ w, initLoader none w = ([], Except.error mustSpecifyMsg)) :=
  ⟨rfl, rfl, fun _ => rfl⟩

/-- Claim C4, corrected: the counterexample. A symbolic-link entry whose
target is a directory is **not** excluded from discovery: the root
`exDirSym` holds the single entry `S` of kind `symlinkToDir`, yet `S` is
discovered and a record is added for it, contradicting the claim that
symbolic-link entries are excluded. -/
theorem symlink_subject_not_excluded :
    discoveredSubjects exDirSym = ["S"]
    ∧ load_data [] exDirSym = LoadResult.ok [("S", "S", [])] :=
  ⟨rfl, rfl⟩

/-- Claim C4, amended: discovery lists the immediate children of the
extracted root, keeps exactly the entries that resolve to directories
(plain directories and symlinks to directories; plain files and symlinks
to files are excluded), sorted lexicographically (the comparator is the
lexicographic order on code-point sequences), and an empty root is not an
error: it yields a loader with zero records. -/
theorem discovery_sorted_resolved_dirs (d : RootDir) :
    List.Sorted (fun a b => pyStrLe a b = true) (discoveredSubjects d)
    ∧ (∀ a b : String, pyStrLe a b = true ↔
        (a.toList = b.toList ∨ List.Lex (fun x y => x < y) a.toList b.toList))
    ∧ (∀ u, u ∈ discoveredSubjects d ↔ (u ∈ listdir d ∧ isdir d u = true))
    ∧ (∀ u k files, lookupEntry d u = some (k, files) →
        (isdir d u = true ↔ (k = EntryKind.dir ∨ k = EntryKind.symlinkToDir)))
    ∧ (∀ tables, listdir d = [] → load_data tables d = LoadResult.ok []) := by
  refine ⟨?_, pyStrLe_iff_lex, ?_, ?_, ?_⟩
  · exact List.Pairwise.filter _
      (List.sorted_insertionSort (fun a b => pyStrLe a b = true) (listdir d))
  · intro u
    rw [discoveredSubjects, List.mem_filter, List.mem_insertionSort]
  · intro u k files hlook
    rw [isdir, hlook]
    cases k <;> simp <;> decide
  · intro tables hempty
    rw [load_data, hempty]
    rfl

/-- Witness for C4 amended: the symlink subject is discovered on the
example root, and the empty root yields zero records. -/
theorem discovery_sorted_resolved_dirs_witness :
    "S" ∈ discoveredSubjects exDirSym
    ∧ load_data ["sleep"] exEmptyDir = LoadResult.ok [] := by
  refine ⟨((discovery_sorted_resolved_dirs exDirSym).2.2.1 "S").mpr ⟨?_, rfl⟩,
    (discovery_sorted_resolved_dirs exEmptyDir).2.2.2.2 ["sleep"] rfl⟩
  simp [listdir, exDirSym]

/-- Claim C5: a requested table name outside the fixed enumerated set
makes construction fail with the `ValueError` naming the offending value
and the allowed set — and the failure happens before any filesystem or
network access: the action trace of `initLoader` is empty. -/
theorem invalid_table_rejected_before_io (ts : List String) (pre : List String)
    (t : String) (post : List String) (w : World)
    (hts : ts = pre ++ t :: post)
    (hpre : ∀ x ∈ pre, x ∈ ALL_TABLES)
    (ht : t ∉ ALL_TABLES) :
    initLoader (some ts) w = ([], Except.error (unsupportedMsg t))
    ∧ unsupportedMsg t = "Unsupported table: " ++ t ++ ". Must be one of " ++ allTablesStr := by
  refine ⟨?_, rfl⟩
  have hv : validateList ts = Except.error (unsupportedMsg t) := by
    rw [hts]; exact validateList_invalid pre t post hpre ht
  simp [initLoader, validateTables, hv]

/-- Witness for C5: requesting `["sleep", "bogus"]` fails with the message
naming `bogus`, with an empty action trace. -/
theorem invalid_table_rejected_before_io_witness :
    initLoader (some ["sleep", "bogus"]) exWorld =
      ([], Except.error (unsupportedMsg "bogus")) :=
  (invalid_table_rejected_before_io ["sleep", "bogus"] ["sleep"] "bogus" [] exWorld
    rfl (by intro x hx; simp only [List.mem_singleton] at hx; subst hx; decide)
    (by decide)).1

/-- Claim C6: when the marker path `<root>/MMASH/MMASH` already exists,
construction performs no network call and no re-extraction, whatever the
table argument: the acquisition stage contributes no actions, and neither
`httpGet` nor `extract` occurs in the trace. -/
theorem acquisition_idempotent (tablesArg : Option (List String)) (w : World)
    (h : w.markerExists = true) :
    acquisitionSteps w = []
    ∧ Step.httpGet ∉ (initLoader tablesArg w).1
    ∧ Step.extract ∉ (initLoader tablesArg w).1 := by
  refine ⟨by simp [acquisitionSteps, h], ?_, ?_⟩ <;>
    cases hv : validateTables tablesArg with
    | error m => simp [initLoader, hv]
    | ok tables => simp [initLoader, hv, acquisitionSteps, h]

/-- Witness for C6: a valid table subset against a world whose marker
exists triggers no download and no extraction. -/
theorem acquisition_idempotent_witness :
    acquisitionSteps exWorld = []
    ∧ Step.httpGet ∉ (initLoader (some ["sleep"]) exWorld).1
    ∧ Step.extract ∉ (initLoader (some ["sleep"]) exWorld).1 :=
  acquisition_idempotent (some ["sleep"]) exWorld rfl

/-- Claim C7, corrected: the counterexample. A non-numeric
`content-length` header **does** abort the download: `int("abc")` raises
before any byte is streamed, so the claim that a non-numeric header does
not abort is false. -/
theorem nonnumeric_content_length_aborts :
    download (some "abc") [[1, 2]] = Except.error ("invalid literal for int: " ++ "abc") :=
  rfl

/-- Claim C7, amended: the declared content length is used only for
progress reporting for headers Python `int` accepts: a missing header
(falling back to `0`) or a numeric header of any value — including one
unrelated to the actual body size — never aborts, and the body's bytes
are streamed to the file unchanged; only a header `int` rejects
(non-numeric) aborts the download. -/
theorem content_length_informational :
    (∀ chunks : List (List Nat), download none chunks = Except.ok (0, chunks.flatten))
    ∧ (∀ (s : String) (n : Int) (chunks : List (List Nat)),
        pyInt s = Except.ok n → download (some s) chunks = Except.ok (n, chunks.flatten)) := by
  constructor
  · intro chunks; rfl
  · intro s n chunks h
    simp [download, contentTotal, h]

/-- Witness for C7 amended: a declared length of `999` against a 3-byte
body still streams all three bytes. -/
theorem content_length_informational_witness :
    download (some "999") [[1], [2, 3]] = Except.ok (999, [1, 2, 3]) :=
  content_length_informational.2 "999" 999 [[1], [2, 3]] rfl

/-- Claim C8: every table of an added record carries a `user_id` column
whose every row value is the subject identifier, whether or not the
source table already had such a column (it is overwritten). -/
theorem userid_column_injected (tables : List String) (rf : String → ReadResult)
    (uid : String) (r : List (String × Table))
    (h : (loadSubject tables rf uid).2 = SubjectOutcome.added r) :
    ∀ t tab, (t, tab) ∈ r → ∀ row ∈ tab, getCell row "user_id" = some uid :=
  readTables_userid tables rf uid tableFiles [] [] r
    (fun _ _ htab => absurd htab (List.not_mem_nil _)) h

/-- Witness for C8: a source table that already carried `user_id = OLD`
ends up with `user_id = A` on its row. -/
theorem userid_column_injected_witness :
    getCell [("user_id", "A"), ("x", "1")] "user_id" = some "A" :=
  userid_column_injected ["sleep"] exReadOldId "A"
    [("sleep", [[("user_id", "A"), ("x", "1")]])] rfl
    "sleep" [[("user_id", "A"), ("x", "1")]] (by simp)
    [("user_id", "A"), ("x", "1")] (by simp)

/-- Claim C9: an empty (non-`None`) table list passes validation, no table
file is read for any subject (the per-subject read trace is empty), and
every discovered subject directory still contributes an empty record,
with the subject identifier as both patient and visit key. -/
theorem empty_table_list_loads_empty_records :
    validateTables (some []) = Except.ok []
    ∧ (∀ (rf : String → ReadResult) (uid : String),
        loadSubject [] rf uid = ([], SubjectOutcome.added []))
    ∧ (∀ d, load_data [] d =
        LoadResult.ok ((discoveredSubjects d).map (fun u => (u, u, [])))) := by
  refine ⟨rfl, fun rf uid => readTables_no_tables rf uid tableFiles [] [], fun d => ?_⟩
  rw [load_data, loadDataAux_no_tables]
  simp [discoveredSubjects]

/-- Claim C10: assembly depends on the requested table list only through
membership — two lists with the same underlying set (whatever the order
or duplication) give the same per-subject assembly, the same attempted
reads, and the same `load_data` result — and the files a subject's
assembly reads form an order-preserving subsequence of the fixed file
order `sleep.csv, Activity.csv, user_info.csv, questionnaire.csv, RR.csv`. -/
theorem record_depends_only_on_table_set :
    (∀ tables1 tables2 : List String, (∀ t, t ∈ tables1 ↔ t ∈ tables2) →
      (∀ (rf : String → ReadResult) (uid : String),
        loadSubject tables1 rf uid = loadSubject tables2 rf uid)
      ∧ (∀ d, load_data tables1 d = load_data tables2 d))
    ∧ (∀ (tables : List String) (rf : String → ReadResult) (uid : String),
        (loadSubject tables rf uid).1.Sublist (tableFiles.map Prod.snd)) := by
  constructor
  · intro tables1 tables2 h
    refine ⟨fun rf uid => readTables_ext tables1 tables2 h rf uid tableFiles [] [], fun d => ?_⟩
    rw [load_data, load_data]
    exact loadDataAux_ext tables1 tables2 h d _ []
  · intro tables rf uid
    obtain ⟨s, hs, hsub⟩ := readTables_reads_sublist tables rf uid tableFiles [] []
    rw [loadSubject, hs]
    simpa using hsub

/-- Witness for C10: the lists `["sleep", "rr"]` and
`["rr", "sleep", "rr"]` denote the same set, so `load_data` agrees on the
example root. -/
theorem record_depends_only_on_table_set_witness :
    load_data ["sleep", "rr"] exDirA = load_data ["rr", "sleep", "rr"] exDirA :=
  (record_depends_only_on_table_set.1 ["sleep", "rr"] ["rr", "sleep", "rr"]
    (by
      intro t
      simp only [List.mem_cons, List.not_mem_nil, or_false]
      tauto)).2 exDirA

end MMASH
